import Mathlib

/-!
The C binding header of tree-sitter-jai.

The repository ships one C file, `bindings/c/tree_sitter/tree-sitter-jai.h`.
It is a program of the C preprocessor (an include guard and two `__cplusplus`
conditionals) around two C declarations.  This development embeds

* the text of the header, line by line (`headerText`);
* the lexing of a line into preprocessing tokens and the recognition of the
  directives the header uses (`lexLine`, `parseLine`);
* macro replacement of the text lines by the object-like macros of the
  including unit (`expandTok`, `expandLine`);
* conditional inclusion: `#ifndef`, `#ifdef`, `#define`, `#endif`
  (`preprocess`, `includeTimes`);
* the declarations the surviving lines make (`parseDecl`) and the language
  linkage C and C++ give them (`linkages`).

The macro environment maps the name of each defined object-like macro to its
replacement list, as `-D name=body` and `#define name body` give them.
Function-like macros are not part of the environment.

The body of `tree_sitter_jai` is in the generated parser, not in the header;
`Handle`, `Process`, `tree_sitter_jai` and `runEvents` model it from its
description.
-/

namespace TreeSitterJai

/-! ## Source text -/

/-- The sixteen lines of `tree-sitter-jai.h`, in order. -/
def headerText : List String :=
  [ "#ifndef TREE_SITTER_JAI_H_",
    "#define TREE_SITTER_JAI_H_",
    "",
    "typedef struct TSLanguage TSLanguage;",
    "",
    "#ifdef __cplusplus",
    "extern \"C\" \x7b",
    "#endif",
    "",
    "const TSLanguage *tree_sitter_jai(void);",
    "",
    "#ifdef __cplusplus",
    "\x7d",
    "#endif",
    "",
    "#endif // TREE_SITTER_JAI_H_" ]

/-! ## Lexing -/

/-- A preprocessing token, kept as its spelling. -/
abbrev Token := String

/-- The double quote character. -/
def dquote : Char := Char.ofNat 34

/-- Characters of identifiers and numbers. -/
def isWordChar (c : Char) : Bool :=
  c.isAlphanum || c == '_'

/-- State of the lexer inside one line. -/
structure LexState where
  /-- Characters of the word being read, last first. -/
  word : List Char
  /-- Characters of the string literal being read, last first, when inside one. -/
  str : Option (List Char)
  /-- Finished tokens, last first. -/
  toks : List Token
deriving DecidableEq, Repr

/-- Close the word being read, if any. -/
def LexState.flush (s : LexState) : LexState :=
  match s.word with
  | [] => s
  | w => { word := [], str := s.str, toks := String.mk w.reverse :: s.toks }

/-- Lex the characters of one line.  A `//` comment runs to the end of the
line and is dropped; a string literal is one token, quotes included. -/
def lexChars : List Char → LexState → List Token
  | [], s => s.flush.toks.reverse
  | c :: rest, s =>
    match s.str with
    | some acc =>
      if c == dquote then
        lexChars rest { word := [], str := none, toks := String.mk (c :: acc).reverse :: s.toks }
      else
        lexChars rest { word := s.word, str := some (c :: acc), toks := s.toks }
    | none =>
      if c == '/' && rest.head? == some '/' then
        s.flush.toks.reverse
      else if isWordChar c then
        lexChars rest { word := c :: s.word, str := none, toks := s.toks }
      else if c.isWhitespace then
        lexChars rest s.flush
      else if c == dquote then
        lexChars rest { word := [], str := some [c], toks := s.flush.toks }
      else
        lexChars rest { word := [], str := none, toks := String.singleton c :: s.flush.toks }

/-- The preprocessing tokens of one line of text. -/
def lexLine (l : String) : List Token :=
  lexChars l.data { word := [], str := none, toks := [] }

/-- A line of the header after directive recognition. -/
inductive Line where
  /-- The directive `#ifndef name`. -/
  | ifndef (name : String)
  /-- The directive `#ifdef name`. -/
  | ifdef (name : String)
  /-- The directive `#define name body`. -/
  | define (name : String) (body : List Token)
  /-- The directive `#endif`. -/
  | endif
  /-- A directive the model does not interpret. -/
  | unknown (toks : List Token)
  /-- A line of ordinary text. -/
  | text (toks : List Token)
deriving DecidableEq, Repr

/-- Recognise the directive of a lexed line. -/
def classify : List Token → Line
  | ["#", "ifndef", name] => Line.ifndef name
  | ["#", "ifdef", name] => Line.ifdef name
  | "#" :: "define" :: name :: body => Line.define name body
  | ["#", "endif"] => Line.endif
  | "#" :: rest => Line.unknown rest
  | toks => Line.text toks

/-- Lex a line and recognise its directive. -/
def parseLine (l : String) : Line :=
  classify (lexLine l)

/-- The header as a list of directives and text lines. -/
def headerLines : List Line :=
  headerText.map parseLine

/-! ## Macro replacement -/

/-- An identifier: a letter or underscore, then word characters. -/
def isIdent (t : Token) : Bool :=
  match t.data with
  | [] => false
  | c :: cs => (c.isAlpha || c == '_') && cs.all isWordChar

/-- The macro environment: each defined name with its replacement list,
latest definition first. -/
abbrev Env := List (String × List Token)

/-- The replacement list of `m`, when `m` is defined. -/
def Env.find : Env → String → Option (List Token)
  | [], _ => none
  | (n, body) :: rest, m => if m = n then some body else Env.find rest m

/-- Is `m` defined? -/
def Env.isDefined (env : Env) (m : String) : Bool :=
  (env.find m).isSome

/-- Replace one token.  An identifier that names a macro is replaced by its
replacement list, which is scanned again with that name hidden, so that a macro
is not replaced inside its own replacement.  Each level of nesting hides one
more defined name, so `env.length + 1` levels are never used up. -/
def expandTok : Nat → Env → List String → Token → List Token
  | 0, _, _, t => [t]
  | fuel + 1, env, hidden, t =>
    if isIdent t && !hidden.contains t then
      match env.find t with
      | none => [t]
      | some body => body.flatMap (expandTok fuel env (t :: hidden))
    else [t]

/-- Macro replacement of the tokens of one text line. -/
def expandLine (env : Env) (toks : List Token) : List Token :=
  toks.flatMap (expandTok (env.length + 1) env [])

/-! ## Conditional inclusion -/

/-- State of the preprocessor inside one file. -/
structure PPState where
  /-- The macros defined so far. -/
  env : Env
  /-- The conditions of the open conditional groups, innermost first. -/
  conds : List Bool
  /-- The text lines kept so far, after macro replacement, in order. -/
  out : List (List Token)
deriving DecidableEq, Repr

/-- Lines are kept when every open conditional group holds. -/
def PPState.active (s : PPState) : Bool :=
  s.conds.all id

/-- Add a replaced line to the output, unless nothing is left of it. -/
def keepLine (out : List (List Token)) (toks : List Token) : List (List Token) :=
  if toks.isEmpty then out else out ++ [toks]

/-- Process one line.  `none` is a preprocessing error: an `#endif` without
an open group, a `#define` of a name that has another replacement list, or a
directive outside the four the model interprets. -/
def ppStep (s : PPState) : Line → Option PPState
  | Line.ifndef m =>
    some { env := s.env, conds := (!s.env.isDefined m) :: s.conds, out := s.out }
  | Line.ifdef m =>
    some { env := s.env, conds := s.env.isDefined m :: s.conds, out := s.out }
  | Line.define m body =>
    if s.active then
      match s.env.find m with
      | none => some { env := (m, body) :: s.env, conds := s.conds, out := s.out }
      | some old => if old = body then some s else none
    else some s
  | Line.endif =>
    match s.conds with
    | [] => none
    | _ :: cs => some { env := s.env, conds := cs, out := s.out }
  | Line.unknown _ =>
    if s.active then none else some s
  | Line.text toks =>
    if s.active then
      some { env := s.env, conds := s.conds, out := keepLine s.out (expandLine s.env toks) }
    else some s

/-- Process the lines of a file in order. -/
def ppRun : PPState → List Line → Option PPState
  | s, [] => some s
  | s, l :: ls =>
    match ppStep s l with
    | none => none
    | some s1 => ppRun s1 ls

/-- Preprocess a file from the environment `env`: the environment after it and
the text lines it contributes.  A conditional group left open is an error. -/
def preprocess (env : Env) (ls : List Line) : Option (Env × List (List Token)) :=
  match ppRun { env := env, conds := [], out := [] } ls with
  | none => none
  | some s => if s.conds.isEmpty then some (s.env, s.out) else none

/-- The name of the include guard macro. -/
def TREE_SITTER_JAI_H_ : String := "TREE_SITTER_JAI_H_"

/-- The name C++ compilers predefine. -/
def __cplusplus : String := "__cplusplus"

/-- The tokens of the text lines of a file, line by line, whatever the
conditionals. -/
def textLines : List Line → List (List Token)
  | [] => []
  | Line.text toks :: ls => if toks.isEmpty then textLines ls else toks :: textLines ls
  | _ :: ls => textLines ls

/-- The identifiers the text lines of the header are written with. -/
def headerWords : List Token :=
  (textLines headerLines).flatten.filter isIdent

/-- The environment leaves the text of the header alone: no identifier of the
text lines of the header names a macro. -/
def Env.leavesHeader (env : Env) : Prop :=
  ∀ t ∈ headerWords, env.isDefined t = false

instance (env : Env) : Decidable env.leavesHeader :=
  inferInstanceAs (Decidable (∀ t ∈ headerWords, env.isDefined t = false))

/-! ## Declarations -/

/-- A type as the header spells one: qualifier, named base type, pointer depth. -/
structure CType where
  /-- The pointed-to (or base) type is `const`-qualified. -/
  isConst : Bool
  /-- The name of the base type. -/
  base : String
  /-- The number of `*` after the base type. -/
  pointers : Nat
deriving DecidableEq, Repr

/-- The parameter list of a function declarator. -/
inductive ParamList where
  /-- The list `(void)`: the function takes no arguments. -/
  | void
  /-- The list `()`: the arguments are left unspecified. -/
  | unspecified
  /-- The list of the parameter types. -/
  | types (ps : List CType)
deriving DecidableEq, Repr

/-- A declaration made by one line of preprocessed text. -/
inductive Decl where
  /-- The line `typedef struct tag newName;`: an incomplete struct and a name for it. -/
  | typedefStruct (tag : String) (newName : String)
  /-- A line that opens the member list of `struct tag`. -/
  | structBody (tag : String)
  /-- The line that opens a linkage block for the language `lang`. -/
  | linkageOpen (lang : String)
  /-- The line `}` that closes a linkage block. -/
  | linkageClose
  /-- The line `ret name(params);`. -/
  | function (ret : CType) (name : String) (params : ParamList)
  /-- The line `ty name;`: an object. -/
  | object (ty : CType) (name : String)
  /-- Any other line. -/
  | unknown (toks : List Token)
deriving DecidableEq, Repr

/-- Count the `*` at the front of a token list. -/
def countStars : List Token → Nat × List Token
  | [] => (0, [])
  | t :: r =>
    if t = "*" then
      match countStars r with
      | (n, r1) => (n + 1, r1)
    else (0, t :: r)

/-- Drop one leading `kw`, reporting whether it was there. -/
def dropKeyword (kw : Token) : List Token → Bool × List Token
  | [] => (false, [])
  | t :: r => if t = kw then (true, r) else (false, t :: r)

/-- Drop the storage-class specifiers at the front of a declaration. -/
def dropStorage : List Token → List Token
  | [] => []
  | t :: r =>
    if t = "extern" || t = "static" || t = "inline" then dropStorage r else t :: r

/-- Read `[const] [struct] base [const] *...` and return the rest. -/
def parseType (toks : List Token) : Option (CType × List Token) :=
  match dropKeyword "const" toks with
  | (c1, r1) =>
    match (dropKeyword "struct" r1).2 with
    | [] => none
    | b :: r3 =>
      if isIdent b then
        match dropKeyword "const" r3 with
        | (c2, r4) =>
          match countStars r4 with
          | (n, r5) => some ({ isConst := c1 || c2, base := b, pointers := n }, r5)
      else none

/-- Split a token list at its commas. -/
def splitCommas : List Token → List (List Token)
  | [] => [[]]
  | t :: r =>
    if t = "," then [] :: splitCommas r
    else
      match splitCommas r with
      | [] => [[t]]
      | g :: gs => (t :: g) :: gs

/-- Read one parameter: a type, then possibly its name. -/
def parseParam (toks : List Token) : Option CType :=
  match parseType toks with
  | some (ty, []) => some ty
  | some (ty, [n]) => if isIdent n then some ty else none
  | _ => none

/-- Read the tokens between the parentheses of a function declarator. -/
def parseParams (toks : List Token) : Option ParamList :=
  if toks = ["void"] then some ParamList.void
  else if toks = [] then some ParamList.unspecified
  else (List.mapM parseParam (splitCommas toks)).map ParamList.types

/-- After the keyword `struct`: is a member list opened before the declaration
ends?  The tag is the last identifier before the brace. -/
def scanStructBody (last : String) : List Token → Option String
  | [] => none
  | t :: r =>
    if t = "\x7b" then some last
    else if t = ";" then none
    else scanStructBody (if isIdent t then t else last) r

/-- Does the token list open the member list of a struct, and of which? -/
def opensStructBody : List Token → Option String
  | [] => none
  | t :: r =>
    if t = "struct" then
      match scanStructBody "" r with
      | some tag => some tag
      | none => opensStructBody r
    else opensStructBody r

/-- Read `ret name(params);`. -/
def parseFunction (toks : List Token) : Option Decl :=
  match parseType toks with
  | some (ret, n :: p :: rest) =>
    match rest.reverse with
    | semi :: close :: inner =>
      if isIdent n && p = "(" && close = ")" && semi = ";" then
        (parseParams inner.reverse).map (Decl.function ret n)
      else none
    | _ => none
  | _ => none

/-- Read `ty name;`. -/
def parseObject (toks : List Token) : Option Decl :=
  match parseType toks with
  | some (ty, [n, semi]) =>
    if isIdent n && semi = ";" then some (Decl.object ty n) else none
  | _ => none

/-- The declaration a line of preprocessed text makes. -/
def parseDecl (toks : List Token) : Decl :=
  match opensStructBody toks with
  | some tag => Decl.structBody tag
  | none =>
    match toks with
    | ["typedef", "struct", tag, newName, ";"] =>
      if isIdent tag && isIdent newName then Decl.typedefStruct tag newName
      else Decl.unknown toks
    | ["extern", lang, "\x7b"] => Decl.linkageOpen lang
    | ["\x7d"] => Decl.linkageClose
    | _ =>
      match parseFunction (dropStorage toks) with
      | some d => d
      | none =>
        match parseObject (dropStorage toks) with
        | some d => d
        | none => Decl.unknown toks

/-- The declarations the header contributes to a translation unit that
includes it once from the environment `env`. -/
def declarations (env : Env) : List Decl :=
  match preprocess env headerLines with
  | none => []
  | some (_, out) => out.map parseDecl

/-- The function declarations among a list of declarations. -/
def functionDecls : List Decl → List Decl
  | [] => []
  | Decl.function r n ps :: ds => Decl.function r n ps :: functionDecls ds
  | _ :: ds => functionDecls ds

/-- The typedef declarations among a list of declarations. -/
def typedefDecls : List Decl → List Decl
  | [] => []
  | Decl.typedefStruct t a :: ds => Decl.typedefStruct t a :: typedefDecls ds
  | _ :: ds => typedefDecls ds

/-- The lines of a list of declarations that were not read as a declaration. -/
def unknownDecls : List Decl → List Decl
  | [] => []
  | Decl.unknown toks :: ds => Decl.unknown toks :: unknownDecls ds
  | _ :: ds => unknownDecls ds

/-- The declaration `const TSLanguage *tree_sitter_jai(void);`. -/
def jaiDecl : Decl :=
  Decl.function { isConst := true, base := "TSLanguage", pointers := 1 }
    "tree_sitter_jai" ParamList.void

/-- The declaration `typedef struct TSLanguage TSLanguage;`. -/
def languageTypedef : Decl :=
  Decl.typedefStruct "TSLanguage" "TSLanguage"

/-- The declarations of the header as it is written, for a C++ unit or a C unit. -/
def writtenDecls (cxx : Bool) : List Decl :=
  if cxx then [languageTypedef, Decl.linkageOpen "\"C\"", jaiDecl, Decl.linkageClose]
  else [languageTypedef, jaiDecl]

/-! ## Language linkage -/

/-- The language linkage of a function. -/
inductive Linkage where
  /-- C linkage: the name is not mangled. -/
  | c
  /-- C++ linkage. -/
  | cxx
deriving DecidableEq, Repr

/-- A translation unit is compiled as C++ exactly when `__cplusplus` is defined. -/
def compiledAsCxx (env : Env) : Bool :=
  env.isDefined __cplusplus

/-- The linkage of a function declared inside the open linkage blocks `stack`
(innermost first).  C knows only C linkage. -/
def currentLinkage (cxx : Bool) (stack : List String) : Linkage :=
  if cxx then
    match stack with
    | [] => Linkage.cxx
    | lang :: _ => if lang = "\"C\"" then Linkage.c else Linkage.cxx
  else Linkage.c

/-- The functions a list of declarations declares, each with its language
linkage.  `none` when the linkage blocks are not balanced, or when a linkage
block (which is C++ syntax) is met in a C translation unit. -/
def linkages (cxx : Bool) : List String → List Decl → Option (List (String × Linkage))
  | stack, [] => if stack.isEmpty then some [] else none
  | stack, Decl.linkageOpen lang :: ds =>
    if cxx then linkages cxx (lang :: stack) ds else none
  | stack, Decl.linkageClose :: ds =>
    match stack with
    | [] => none
    | _ :: st => linkages cxx st ds
  | stack, Decl.function _ n _ :: ds =>
    (linkages cxx stack ds).map (fun r => (n, currentLinkage cxx stack) :: r)
  | stack, _ :: ds => linkages cxx stack ds

/-! ## Uses of the handle type -/

/-- The types a declaration mentions: return type and parameter types of a
function, type of an object. -/
def Decl.usedTypes : Decl → List CType
  | Decl.function ret _ (ParamList.types ps) => ret :: ps
  | Decl.function ret _ _ => [ret]
  | Decl.object ty _ => [ty]
  | _ => []

/-- The parameter types of a declaration. -/
def Decl.paramTypes : Decl → List CType
  | Decl.function _ _ (ParamList.types ps) => ps
  | _ => []

/-- The return type of a function declaration. -/
def Decl.returnType : Decl → Option CType
  | Decl.function ret _ _ => some ret
  | _ => none

/-- The struct tags whose member list a list of declarations opens. -/
def definedStructs : List Decl → List String
  | [] => []
  | Decl.structBody tag :: ds => tag :: definedStructs ds
  | _ :: ds => definedStructs ds

/-- The tokens the header emits when included once from `env`. -/
def emittedTokens (env : Env) : List Token :=
  match preprocess env headerLines with
  | none => []
  | some (_, out) => out.flatten

/-- Does a function declaration return a value that is not a pointer, as a
status or error code would be? -/
def Decl.returnsCode : Decl → Bool
  | Decl.function ret _ _ => ret.pointers == 0 && ret.base != "void"
  | _ => false

/-! ## The entry point -/

/-- Modelled from the spec: the value of the pointer a caller receives, null
or a handle to an object of the process.  The body of `tree_sitter_jai` is in
the generated parser source, which the header only declares. -/
inductive Handle where
  /-- The null pointer. -/
  | null
  /-- A handle to the object with the given identity. -/
  | object (id : Nat)
deriving DecidableEq, Repr

/-- Modelled from the spec: the state of a process that links the generated
parser.  The body of `tree_sitter_jai` is in the generated parser source, which
the header only declares; the spec describes the handle as stable, immutable,
read-only state for the lifetime of the process, obtained after a one-time
internal initialization. -/
structure Process where
  /-- Identity of the compiled grammar description. -/
  grammar : Nat
  /-- The one-time internal initialization has run. -/
  initialized : Bool
  /-- What a caller can observe of the rest of the process. -/
  observable : List Nat
deriving DecidableEq, Repr

/-- Modelled from the spec: the operation the header declares, whose body is
not in the header.  No inputs; returns a handle to the compiled grammar
description; no observable side effects beyond one-time internal
initialization; cannot fail. -/
def tree_sitter_jai (p : Process) : Handle × Process :=
  (Handle.object p.grammar,
   { grammar := p.grammar, initialized := true, observable := p.observable })

/-- Modelled from the spec: what happens in the process over time, which the
header does not show: a call of the entry point, or other activity that
replaces what is observable of the rest of the process.
The spec gives no operation that writes the grammar description. -/
inductive Event where
  /-- A call of `tree_sitter_jai`. -/
  | call
  /-- Activity of the rest of the process. -/
  | other (obs : List Nat)
deriving DecidableEq, Repr

/-- Modelled from the spec: run a history of events over the modelled process;
the handles the calls returned, in order, and the process state at the end. -/
def runEvents : List Event → Process → List Handle × Process
  | [], p => ([], p)
  | Event.call :: es, p =>
    match runEvents es (tree_sitter_jai p).2 with
    | (hs, q) => ((tree_sitter_jai p).1 :: hs, q)
  | Event.other obs :: es, p =>
    runEvents es
      { grammar := p.grammar, initialized := p.initialized, observable := obs }

/-- The number of calls in a history. -/
def callCount : List Event → Nat
  | [] => 0
  | Event.call :: es => callCount es + 1
  | Event.other _ :: es => callCount es

/-! ## Evaluation lemmas -/

/-- The header after lexing and directive recognition. -/
theorem headerLines_eq : headerLines =
    [ Line.ifndef "TREE_SITTER_JAI_H_",
      Line.define "TREE_SITTER_JAI_H_" [],
      Line.text [],
      Line.text ["typedef", "struct", "TSLanguage", "TSLanguage", ";"],
      Line.text [],
      Line.ifdef "__cplusplus",
      Line.text ["extern", "\"C\"", "\x7b"],
      Line.endif,
      Line.text [],
      Line.text ["const", "TSLanguage", "*", "tree_sitter_jai", "(", "void", ")", ";"],
      Line.text [],
      Line.ifdef "__cplusplus",
      Line.text ["\x7d"],
      Line.endif,
      Line.text [],
      Line.endif ] := by
  decide

/-- A name is not defined exactly when it has no replacement list. -/
theorem isDefined_eq_false (env : Env) (m : String) :
    env.isDefined m = false ↔ env.find m = none := by
  unfold Env.isDefined
  cases env.find m <;> simp

/-- A token that names no macro is left as it is. -/
theorem expandTok_of_undefined (fuel : Nat) (env : Env) (hidden : List String) (t : Token)
    (h : isIdent t = true → env.isDefined t = false) :
    expandTok fuel env hidden t = [t] := by
  cases fuel with
  | zero => rfl
  | succ k =>
    unfold expandTok
    split
    · rename_i hc
      have hid : isIdent t = true := by
        cases hi : isIdent t
        · rw [hi] at hc; simp at hc
        · rfl
      rw [(isDefined_eq_false env t).mp (h hid)]
    · rfl

/-- A line whose identifiers name no macro is left as it is. -/
theorem expandLine_of_undefined (env : Env) (toks : List Token)
    (h : ∀ t ∈ toks, isIdent t = true → env.isDefined t = false) :
    expandLine env toks = toks := by
  unfold expandLine
  induction toks with
  | nil => rfl
  | cons t ts ih =>
    rw [List.flatMap_cons, expandTok_of_undefined _ env [] t (h t (List.mem_cons_self _ _)),
      ih (fun u hu => h u (List.mem_cons_of_mem _ hu))]
    rfl

/-- Defining the guard macro does not touch the identifiers of the header. -/
theorem leavesHeader_define (env : Env) (body : List Token) (h : env.leavesHeader) :
    Env.leavesHeader (("TREE_SITTER_JAI_H_", body) :: env) := by
  have hne : ∀ t ∈ headerWords, t ≠ "TREE_SITTER_JAI_H_" := by decide
  intro t ht
  have h1 := (isDefined_eq_false env t).mp (h t ht)
  rw [isDefined_eq_false]
  simp [Env.find, hne t ht, h1]

/-- A line written with identifiers of the header is left as it is by an
environment that leaves the header alone. -/
theorem expandLine_header (env : Env) (h : env.leavesHeader) (toks : List Token)
    (hsub : ∀ t ∈ toks, isIdent t = true → t ∈ headerWords) :
    expandLine env toks = toks :=
  expandLine_of_undefined env toks (fun t ht hid => h t (hsub t ht hid))

/-- A blank line stays blank. -/
theorem expandLine_nil (env : Env) : expandLine env [] = [] :=
  rfl

/-- A blank line is not kept. -/
theorem keepLine_nil (out : List (List Token)) : keepLine out [] = out :=
  rfl

/-- A first inclusion in a C unit defines the guard macro and keeps what macro
replacement leaves of the typedef and of the declaration. -/
theorem preprocess_first_c (env : Env)
    (hg : env.isDefined TREE_SITTER_JAI_H_ = false) (hc : env.isDefined __cplusplus = false) :
    preprocess env headerLines =
      some (("TREE_SITTER_JAI_H_", []) :: env,
        keepLine
          (keepLine []
            (expandLine (("TREE_SITTER_JAI_H_", []) :: env)
              ["typedef", "struct", "TSLanguage", "TSLanguage", ";"]))
          (expandLine (("TREE_SITTER_JAI_H_", []) :: env)
            ["const", "TSLanguage", "*", "tree_sitter_jai", "(", "void", ")", ";"])) := by
  have hg1 : env.find "TREE_SITTER_JAI_H_" = none := (isDefined_eq_false _ _).mp hg
  have hc1 : env.find "__cplusplus" = none := (isDefined_eq_false _ _).mp hc
  rw [headerLines_eq]
  simp [preprocess, ppRun, ppStep, PPState.active, Env.isDefined, Env.find, hg1, hc1,
    expandLine_nil, keepLine_nil]

/-- A first inclusion in a C++ unit also keeps the two lines of the linkage block. -/
theorem preprocess_first_cxx (env : Env)
    (hg : env.isDefined TREE_SITTER_JAI_H_ = false) (hc : env.isDefined __cplusplus = true) :
    preprocess env headerLines =
      some (("TREE_SITTER_JAI_H_", []) :: env,
        keepLine
          (keepLine
            (keepLine
              (keepLine []
                (expandLine (("TREE_SITTER_JAI_H_", []) :: env)
                  ["typedef", "struct", "TSLanguage", "TSLanguage", ";"]))
              (expandLine (("TREE_SITTER_JAI_H_", []) :: env) ["extern", "\"C\"", "\x7b"]))
            (expandLine (("TREE_SITTER_JAI_H_", []) :: env)
              ["const", "TSLanguage", "*", "tree_sitter_jai", "(", "void", ")", ";"]))
          (expandLine (("TREE_SITTER_JAI_H_", []) :: env) ["\x7d"])) := by
  have hg1 : env.find "TREE_SITTER_JAI_H_" = none := (isDefined_eq_false _ _).mp hg
  have hc1 : (env.find "__cplusplus").isSome = true := hc
  rw [headerLines_eq]
  simp [preprocess, ppRun, ppStep, PPState.active, Env.isDefined, Env.find, hg1, hc1,
    expandLine_nil, keepLine_nil]

/-- An inclusion with the guard macro defined keeps nothing and defines nothing. -/
theorem preprocess_again (env : Env) (hg : env.isDefined TREE_SITTER_JAI_H_ = true) :
    preprocess env headerLines = some (env, []) := by
  have hg1 : (env.find "TREE_SITTER_JAI_H_").isSome = true := hg
  rw [headerLines_eq]
  simp [preprocess, ppRun, ppStep, PPState.active, Env.isDefined, hg1]

/-- A first inclusion in a C unit whose macros leave the header alone keeps
the typedef and the declaration as written. -/
theorem preprocess_written_c (env : Env)
    (hg : env.isDefined TREE_SITTER_JAI_H_ = false) (hc : env.isDefined __cplusplus = false)
    (hl : env.leavesHeader) :
    preprocess env headerLines =
      some (("TREE_SITTER_JAI_H_", []) :: env,
        [ ["typedef", "struct", "TSLanguage", "TSLanguage", ";"],
          ["const", "TSLanguage", "*", "tree_sitter_jai", "(", "void", ")", ";"] ]) := by
  have hl1 := leavesHeader_define env [] hl
  rw [preprocess_first_c env hg hc,
    expandLine_header _ hl1 ["typedef", "struct", "TSLanguage", "TSLanguage", ";"] (by decide),
    expandLine_header _ hl1
      ["const", "TSLanguage", "*", "tree_sitter_jai", "(", "void", ")", ";"] (by decide)]
  rfl

/-- A first inclusion in a C++ unit whose macros leave the header alone keeps
the four text lines as written. -/
theorem preprocess_written_cxx (env : Env)
    (hg : env.isDefined TREE_SITTER_JAI_H_ = false) (hc : env.isDefined __cplusplus = true)
    (hl : env.leavesHeader) :
    preprocess env headerLines =
      some (("TREE_SITTER_JAI_H_", []) :: env,
        [ ["typedef", "struct", "TSLanguage", "TSLanguage", ";"],
          ["extern", "\"C\"", "\x7b"],
          ["const", "TSLanguage", "*", "tree_sitter_jai", "(", "void", ")", ";"],
          ["\x7d"] ]) := by
  have hl1 := leavesHeader_define env [] hl
  rw [preprocess_first_cxx env hg hc,
    expandLine_header _ hl1 ["typedef", "struct", "TSLanguage", "TSLanguage", ";"] (by decide),
    expandLine_header _ hl1 ["extern", "\"C\"", "\x7b"] (by decide),
    expandLine_header _ hl1
      ["const", "TSLanguage", "*", "tree_sitter_jai", "(", "void", ")", ";"] (by decide),
    expandLine_header _ hl1 ["\x7d"] (by decide)]
  rfl

/-- The declarations of a first inclusion in a C unit. -/
theorem declarations_first_c (env : Env)
    (hg : env.isDefined TREE_SITTER_JAI_H_ = false) (hc : env.isDefined __cplusplus = false)
    (hl : env.leavesHeader) :
    declarations env = [languageTypedef, jaiDecl] := by
  unfold declarations
  rw [preprocess_written_c env hg hc hl]
  show List.map parseDecl _ = _
  decide

/-- The declarations of a first inclusion in a C++ unit. -/
theorem declarations_first_cxx (env : Env)
    (hg : env.isDefined TREE_SITTER_JAI_H_ = false) (hc : env.isDefined __cplusplus = true)
    (hl : env.leavesHeader) :
    declarations env =
      [languageTypedef, Decl.linkageOpen "\"C\"", jaiDecl, Decl.linkageClose] := by
  unfold declarations
  rw [preprocess_written_cxx env hg hc hl]
  show List.map parseDecl _ = _
  decide

/-- The declarations of a first inclusion are the declarations as written. -/
theorem declarations_first (env : Env)
    (hg : env.isDefined TREE_SITTER_JAI_H_ = false) (hl : env.leavesHeader) :
    declarations env = writtenDecls (compiledAsCxx env) := by
  cases hc : env.isDefined __cplusplus
  · rw [declarations_first_c env hg hc hl]
    simp [writtenDecls, compiledAsCxx, hc]
  · rw [declarations_first_cxx env hg hc hl]
    simp [writtenDecls, compiledAsCxx, hc]

/-- An inclusion with the guard macro defined declares nothing. -/
theorem declarations_again (env : Env) (hg : env.isDefined TREE_SITTER_JAI_H_ = true) :
    declarations env = [] := by
  unfold declarations
  rw [preprocess_again env hg]
  rfl

/-- The three possible lists of declarations of one inclusion. -/
theorem declarations_cases (env : Env) (hl : env.leavesHeader) :
    declarations env = [] ∨ declarations env = writtenDecls false ∨
      declarations env = writtenDecls true := by
  cases hg : env.isDefined TREE_SITTER_JAI_H_
  · cases hc : env.isDefined __cplusplus
    · exact Or.inr (Or.inl (declarations_first_c env hg hc hl))
    · exact Or.inr (Or.inr (declarations_first_cxx env hg hc hl))
  · exact Or.inl (declarations_again env hg)

/-- The functions a first inclusion declares. -/
theorem functionDecls_first (env : Env)
    (hg : env.isDefined TREE_SITTER_JAI_H_ = false) (hl : env.leavesHeader) :
    functionDecls (declarations env) = [jaiDecl] := by
  rw [declarations_first env hg hl]
  cases compiledAsCxx env <;> decide

/-- The typedefs a first inclusion declares. -/
theorem typedefDecls_first (env : Env)
    (hg : env.isDefined TREE_SITTER_JAI_H_ = false) (hl : env.leavesHeader) :
    typedefDecls (declarations env) = [languageTypedef] := by
  rw [declarations_first env hg hl]
  cases compiledAsCxx env <;> decide

/-- Every call of a history returns the handle to the grammar description. -/
theorem runEvents_handles (es : List Event) (p : Process) :
    ∀ h ∈ (runEvents es p).1, h = Handle.object p.grammar := by
  induction es generalizing p with
  | nil => intro h hh; simp [runEvents] at hh
  | cons e es ih =>
    cases e with
    | call =>
      intro h hh
      simp only [runEvents, List.mem_cons] at hh
      rcases hh with hh | hh
      · rw [hh]; rfl
      · exact ih (tree_sitter_jai p).2 h hh
    | other obs =>
      intro h hh
      exact ih { grammar := p.grammar, initialized := p.initialized, observable := obs } h hh

/-- Every call of a history returns. -/
theorem runEvents_length (es : List Event) (p : Process) :
    (runEvents es p).1.length = callCount es := by
  induction es generalizing p with
  | nil => rfl
  | cons e es ih =>
    cases e with
    | call => simp only [runEvents, callCount, List.length_cons, ih]
    | other obs => simp only [runEvents, callCount, ih]

/-! ## The claims -/

/-- C1: included from an environment in which the guard macro is not defined
and no identifier of the header's text names a macro, with or without
`__cplusplus`, the header contributes exactly the declarations it is written
with (the typedef and the function, inside the linkage block in C++), none of
them unread; the only function among them is `tree_sitter_jai`, with the
parameter list `(void)` and a return type that is a pointer to `TSLanguage`,
the one type name the header declares. -/
theorem header_exposes_one_operation (env : Env)
    (hg : env.isDefined TREE_SITTER_JAI_H_ = false) (hl : env.leavesHeader) :
    declarations env = writtenDecls (compiledAsCxx env)
      ∧ unknownDecls (declarations env) = []
      ∧ functionDecls (declarations env) =
        [Decl.function { isConst := true, base := "TSLanguage", pointers := 1 }
          "tree_sitter_jai" ParamList.void]
      ∧ typedefDecls (declarations env) = [Decl.typedefStruct "TSLanguage" "TSLanguage"] := by
  refine ⟨declarations_first env hg hl, ?_, functionDecls_first env hg hl,
    typedefDecls_first env hg hl⟩
  rw [declarations_first env hg hl]
  cases compiledAsCxx env <;> decide

theorem header_exposes_one_operation_witness :
    (Env.isDefined [("__cplusplus", ["201703L"])] TREE_SITTER_JAI_H_ = false
        ∧ Env.leavesHeader [("__cplusplus", ["201703L"])])
      ∧ declarations [("__cplusplus", ["201703L"])] = writtenDecls true
      ∧ functionDecls (declarations [("__cplusplus", ["201703L"])]) =
        [Decl.function { isConst := true, base := "TSLanguage", pointers := 1 }
          "tree_sitter_jai" ParamList.void] :=
  have h := header_exposes_one_operation [("__cplusplus", ["201703L"])]
    (by decide) (by decide)
  ⟨⟨by decide, by decide⟩, h.1, h.2.2.1⟩

/-- C2: take a C++ unit (`__cplusplus` defined) and a C unit (not defined),
both including the header for the first time, with macros that leave the
identifiers of the header alone.  In the C++ unit the declaration of
`tree_sitter_jai` stands between the opening and the closing of one linkage
block for "C", the blocks are balanced, and the function gets C linkage.  In
the C unit neither `extern` nor "C" is emitted, the one declaration remains
and has C linkage.  The function declaration is the same in both units. -/
theorem declared_once_with_c_linkage (envC envX : Env)
    (hgC : envC.isDefined TREE_SITTER_JAI_H_ = false)
    (hgX : envX.isDefined TREE_SITTER_JAI_H_ = false)
    (hC : envC.isDefined __cplusplus = false) (hX : envX.isDefined __cplusplus = true)
    (hlC : envC.leavesHeader) (hlX : envX.leavesHeader) :
    declarations envX =
        [languageTypedef, Decl.linkageOpen "\"C\"", jaiDecl, Decl.linkageClose]
      ∧ linkages (compiledAsCxx envX) [] (declarations envX) =
        some [("tree_sitter_jai", Linkage.c)]
      ∧ "extern" ∉ emittedTokens envC
      ∧ "\"C\"" ∉ emittedTokens envC
      ∧ declarations envC = [languageTypedef, jaiDecl]
      ∧ linkages (compiledAsCxx envC) [] (declarations envC) =
        some [("tree_sitter_jai", Linkage.c)]
      ∧ functionDecls (declarations envC) = [jaiDecl]
      ∧ functionDecls (declarations envC) = functionDecls (declarations envX) := by
  have hx : compiledAsCxx envX = true := hX
  have hc : compiledAsCxx envC = false := hC
  have htok : emittedTokens envC =
      ["typedef", "struct", "TSLanguage", "TSLanguage", ";",
        "const", "TSLanguage", "*", "tree_sitter_jai", "(", "void", ")", ";"] := by
    unfold emittedTokens
    rw [preprocess_written_c envC hgC hC hlC]
    rfl
  refine ⟨declarations_first_cxx envX hgX hX hlX, ?_, ?_, ?_,
    declarations_first_c envC hgC hC hlC, ?_, functionDecls_first envC hgC hlC, ?_⟩
  · rw [hx, declarations_first_cxx envX hgX hX hlX]
    decide
  · rw [htok]
    decide
  · rw [htok]
    decide
  · rw [hc, declarations_first_c envC hgC hC hlC]
    decide
  · rw [functionDecls_first envC hgC hlC, functionDecls_first envX hgX hlX]

theorem declared_once_with_c_linkage_witness :
    (Env.isDefined [] TREE_SITTER_JAI_H_ = false
        ∧ Env.isDefined [("__cplusplus", ["201703L"])] TREE_SITTER_JAI_H_ = false
        ∧ Env.isDefined [] __cplusplus = false
        ∧ Env.isDefined [("__cplusplus", ["201703L"])] __cplusplus = true
        ∧ Env.leavesHeader [] ∧ Env.leavesHeader [("__cplusplus", ["201703L"])])
      ∧ linkages (compiledAsCxx [("__cplusplus", ["201703L"])]) []
          (declarations [("__cplusplus", ["201703L"])]) =
        some [("tree_sitter_jai", Linkage.c)]
      ∧ linkages (compiledAsCxx []) [] (declarations []) =
        some [("tree_sitter_jai", Linkage.c)]
      ∧ functionDecls (declarations []) =
        functionDecls (declarations [("__cplusplus", ["201703L"])]) :=
  have h := declared_once_with_c_linkage [] [("__cplusplus", ["201703L"])]
    (by decide) (by decide) (by decide) (by decide) (by decide) (by decide)
  ⟨⟨by decide, by decide, by decide, by decide, by decide, by decide⟩,
    h.2.1, h.2.2.2.2.2.1, h.2.2.2.2.2.2.2⟩

/-- C3: the text lines of the header, whatever the conditionals, are the
typedef, the two lines of the linkage block and the function declaration, and
none of them opens the member list of a struct.  For every environment whose
macros leave the identifiers of the header alone, an inclusion contributes
nothing or exactly the declarations as written for C or for C++: no line is
left unread, no member list of a struct is opened, and every type of a
function or object that names `TSLanguage` is a pointer; on a first inclusion
the only declaration of the type is the forward declaration
`typedef struct TSLanguage TSLanguage;`. -/
theorem language_type_is_incomplete (env : Env) (hl : env.leavesHeader) :
    textLines headerLines =
        [ ["typedef", "struct", "TSLanguage", "TSLanguage", ";"],
          ["extern", "\"C\"", "\x7b"],
          ["const", "TSLanguage", "*", "tree_sitter_jai", "(", "void", ")", ";"],
          ["\x7d"] ]
      ∧ (textLines headerLines).map opensStructBody = [none, none, none, none]
      ∧ (declarations env = [] ∨ declarations env = writtenDecls false
          ∨ declarations env = writtenDecls true)
      ∧ unknownDecls (declarations env) = []
      ∧ definedStructs (declarations env) = []
      ∧ (∀ d ∈ declarations env, ∀ t ∈ d.usedTypes,
          t.base = "TSLanguage" → 0 < t.pointers)
      ∧ (env.isDefined TREE_SITTER_JAI_H_ = false →
          typedefDecls (declarations env) = [Decl.typedefStruct "TSLanguage" "TSLanguage"]) := by
  refine ⟨by decide, by decide, declarations_cases env hl, ?_, ?_, ?_,
    fun hg => typedefDecls_first env hg hl⟩
  · rcases declarations_cases env hl with h | h | h <;> rw [h] <;> decide
  · rcases declarations_cases env hl with h | h | h <;> rw [h] <;> decide
  · rcases declarations_cases env hl with h | h | h <;> rw [h] <;> decide

theorem language_type_is_incomplete_witness :
    (Env.leavesHeader [] ∧ Env.isDefined [] TREE_SITTER_JAI_H_ = false)
      ∧ unknownDecls (declarations []) = []
      ∧ definedStructs (declarations []) = []
      ∧ typedefDecls (declarations []) = [Decl.typedefStruct "TSLanguage" "TSLanguage"] :=
  have h := language_type_is_incomplete [] (by decide)
  ⟨⟨by decide, by decide⟩, h.2.2.2.1, h.2.2.2.2.1, h.2.2.2.2.2.2 (by decide)⟩

/-- C4: for every environment whose macros leave the identifiers of the header
alone, an inclusion contributes nothing or exactly the declarations as
written, with no line left unread; every function among them that returns a
`TSLanguage` returns it as a pointer to `const`, and none has a parameter of a
`TSLanguage` type, qualified or not, pointer or not; on a first inclusion the
one return type handed out is `const TSLanguage *` and the one parameter list
is empty. -/
theorem handle_is_read_only (env : Env) (hl : env.leavesHeader) :
    (declarations env = [] ∨ declarations env = writtenDecls false
        ∨ declarations env = writtenDecls true)
      ∧ unknownDecls (declarations env) = []
      ∧ (∀ d ∈ declarations env, ∀ t ∈ d.returnType,
          t.base = "TSLanguage" → t.isConst = true ∧ t.pointers = 1)
      ∧ (∀ d ∈ declarations env, ∀ t ∈ d.paramTypes, t.base ≠ "TSLanguage")
      ∧ (env.isDefined TREE_SITTER_JAI_H_ = false →
          (functionDecls (declarations env)).map Decl.returnType =
            [some { isConst := true, base := "TSLanguage", pointers := 1 }]
          ∧ (functionDecls (declarations env)).map Decl.paramTypes = [[]]) := by
  refine ⟨declarations_cases env hl, ?_, ?_, ?_, ?_⟩
  · rcases declarations_cases env hl with h | h | h <;> rw [h] <;> decide
  · rcases declarations_cases env hl with h | h | h <;> rw [h] <;> decide
  · rcases declarations_cases env hl with h | h | h <;> rw [h] <;> decide
  · intro hg
    rw [functionDecls_first env hg hl]
    decide

theorem handle_is_read_only_witness :
    (Env.leavesHeader [("__cplusplus", ["201703L"])]
        ∧ Env.isDefined [("__cplusplus", ["201703L"])] TREE_SITTER_JAI_H_ = false)
      ∧ unknownDecls (declarations [("__cplusplus", ["201703L"])]) = []
      ∧ (functionDecls (declarations [("__cplusplus", ["201703L"])])).map Decl.returnType =
        [some { isConst := true, base := "TSLanguage", pointers := 1 }]
      ∧ (functionDecls (declarations [("__cplusplus", ["201703L"])])).map Decl.paramTypes
        = [[]] :=
  have h := handle_is_read_only [("__cplusplus", ["201703L"])] (by decide)
  ⟨⟨by decide, by decide⟩, h.2.1, h.2.2.2.2 (by decide)⟩

/-- C5: in the model of the entry point every call of any history of calls and
other activity returns, and the handle it returns is not null.  On a first
inclusion with macros that leave the identifiers of the header alone, the
header contributes exactly the declarations as written, no line left unread,
and the one function among them has no channel for an error: its parameter
list is `(void)`, so there is neither an out-parameter nor a status argument,
and what it returns is the pointer to the language, not a code. -/
theorem entry_point_cannot_fail (p : Process) (es : List Event) (env : Env)
    (hg : env.isDefined TREE_SITTER_JAI_H_ = false) (hl : env.leavesHeader) :
    (runEvents es p).1.length = callCount es
      ∧ (∀ h ∈ (runEvents es p).1, h ≠ Handle.null)
      ∧ (tree_sitter_jai p).1 ≠ Handle.null
      ∧ declarations env = writtenDecls (compiledAsCxx env)
      ∧ unknownDecls (declarations env) = []
      ∧ functionDecls (declarations env) =
        [Decl.function { isConst := true, base := "TSLanguage", pointers := 1 }
          "tree_sitter_jai" ParamList.void]
      ∧ (∀ d ∈ declarations env, d.returnsCode = false ∧ d.paramTypes = []) := by
  refine ⟨runEvents_length es p, ?_, ?_, declarations_first env hg hl, ?_,
    functionDecls_first env hg hl, ?_⟩
  · intro h hh
    rw [runEvents_handles es p h hh]
    exact Handle.noConfusion
  · exact Handle.noConfusion
  · rw [declarations_first env hg hl]
    cases compiledAsCxx env <;> decide
  · rw [declarations_first env hg hl]
    cases compiledAsCxx env <;> decide

theorem entry_point_cannot_fail_witness :
    (Env.isDefined [] TREE_SITTER_JAI_H_ = false ∧ Env.leavesHeader [])
      ∧ (runEvents [Event.call, Event.other [7], Event.call]
          { grammar := 4096, initialized := false, observable := [] }).1 =
        [Handle.object 4096, Handle.object 4096]
      ∧ (∀ h ∈ (runEvents [Event.call, Event.other [7], Event.call]
          { grammar := 4096, initialized := false, observable := [] }).1, h ≠ Handle.null)
      ∧ (∀ d ∈ declarations [], d.returnsCode = false ∧ d.paramTypes = []) :=
  have h := entry_point_cannot_fail
    { grammar := 4096, initialized := false, observable := [] }
    [Event.call, Event.other [7], Event.call] [] (by decide) (by decide)
  ⟨⟨by decide, by decide⟩, by decide, h.2.1, h.2.2.2.2.2.2⟩

/-- C6: in the model of the entry point, over any history of calls and other
activity of the process, any two calls return the same handle, the handle a
call made now returns; a call leaves what is observable of the process and the
grammar description as they were, and once the one-time initialization has run
a call changes nothing at all. -/
theorem handle_is_stable (p : Process) (es : List Event) :
    (∀ h1 ∈ (runEvents es p).1, ∀ h2 ∈ (runEvents es p).1, h1 = h2)
      ∧ (∀ h ∈ (runEvents es p).1, h = (tree_sitter_jai p).1)
      ∧ (tree_sitter_jai p).2.observable = p.observable
      ∧ (tree_sitter_jai p).2.grammar = p.grammar
      ∧ (tree_sitter_jai (tree_sitter_jai p).2).2 = (tree_sitter_jai p).2
      ∧ (p.initialized = true → (tree_sitter_jai p).2 = p) := by
  refine ⟨?_, runEvents_handles es p, rfl, rfl, rfl, ?_⟩
  · intro h1 hh1 h2 hh2
    rw [runEvents_handles es p h1 hh1, runEvents_handles es p h2 hh2]
  · intro hi
    cases p with
    | mk g ini obs =>
      simp only at hi
      subst hi
      rfl

theorem handle_is_stable_witness :
    (runEvents [Event.call, Event.other [1], Event.call]
        { grammar := 4096, initialized := false, observable := [] }).1 =
        [Handle.object 4096, Handle.object 4096]
      ∧ (∀ h ∈ (runEvents [Event.call, Event.other [1], Event.call]
          { grammar := 4096, initialized := false, observable := [] }).1,
          h = Handle.object 4096) :=
  ⟨rfl, (handle_is_stable
    { grammar := 4096, initialized := false, observable := [] }
    [Event.call, Event.other [1], Event.call]).2.1⟩

end TreeSitterJai
